import Mathlib

/-!
Shallow embedding of the size-grading engine of the fashion-app repository
(source file: the utilities module exporting `parsePOMInput`,
`generateSizeChart`, `getSuggestedIncrement`, `validateGradingRules`,
`generateAllSizeCharts` and `mapSizeAcrossSystems`).

Modelling conventions:
* JavaScript numbers are modelled as exact rationals (`ℚ`); every literal in
  the source is a short decimal, represented exactly.
* JavaScript objects used as string-keyed dictionaries are modelled as
  association lists `List (String × α)` with unique keys maintained by
  `upsert` (in-place update of an existing key, else append), which matches
  JS property insertion/update order.
* `Math.round` is round-half-up (towards +∞): `⌊x + 1/2⌋`.
* Fallible code (`throw new Error`) is modelled with `Except String`.
* String helpers (`split`, `trim`, `includes`, `toUpperCase`, `toLowerCase`,
  the regexes `/\s{2,}|\t+/` and `/[^\d.]/g`, and `parseFloat`) are
  re-implemented over `List Char` so every definition is executable down to
  the kernel.  `jsIsSpace` covers the ASCII range of the JS `\s` class and of
  `String.prototype.trim` (the inputs of interest contain no exotic Unicode
  whitespace).
-/

/-- ASCII part of the JavaScript whitespace class `\s` (also used by
`String.prototype.trim`). -/
def jsIsSpace (c : Char) : Bool :=
  c == ' ' || c == '\t' || c == '\n' || c == '\r' || c == '\x0b' || c == '\x0c'

/-- JS `String.prototype.trim` (ASCII whitespace). -/
def jsTrim (s : String) : String :=
  String.mk (((s.data.dropWhile jsIsSpace).reverse.dropWhile jsIsSpace).reverse)

/-- JS `String.prototype.includes` for a non-empty pattern. -/
def jsIncludes (s pat : String) : Bool :=
  jsIncludesAux pat.data s.data
where
  jsIncludesAux (pat : List Char) : List Char → Bool
    | [] => pat.isEmpty
    | c :: rest => pat.isPrefixOf (c :: rest) || jsIncludesAux pat rest

/-- JS `String.prototype.toLowerCase` (ASCII). -/
def jsToLower (s : String) : String := String.mk (s.data.map Char.toLower)

/-- JS `String.prototype.toUpperCase` (ASCII). -/
def jsToUpper (s : String) : String := String.mk (s.data.map Char.toUpper)

/-- Auxiliary for `jsSplit`: split a character list on a non-empty separator,
leftmost-first and non-overlapping, like JS `split`.  `acc` holds the current
segment reversed.  The `fuel` argument (instantiated with the input length,
enough since every step consumes at least one character) keeps the recursion
structural, so the definition evaluates inside the kernel. -/
def splitSepAux (sep : List Char) : ℕ → List Char → List Char → List String
  | _, [], acc => [String.mk acc.reverse]
  | 0, l, acc => [String.mk (acc.reverse ++ l)]
  | fuel + 1, c :: rest, acc =>
    if sep.isPrefixOf (c :: rest) then
      String.mk acc.reverse :: splitSepAux sep fuel ((c :: rest).drop sep.length) []
    else
      splitSepAux sep fuel rest (c :: acc)

/-- JS `String.prototype.split` with a non-empty literal string separator. -/
def jsSplit (s sep : String) : List String :=
  match sep.data with
  | [] => [s]
  | c :: cs => splitSepAux (c :: cs) s.data.length s.data []

/-- Separator test for the table-format regex `/\s{2,}|\t+/`: a maximal
whitespace run separates segments iff it has length ≥ 2 or is a single tab. -/
def isTableSep (pend : List Char) : Bool :=
  decide (2 ≤ pend.length) || pend == ['\t']

/-- JS `String.prototype.split` on the regex `/\s{2,}|\t+/`.  `pend` holds the
pending (reversed) run of whitespace, `acc` the current (reversed) segment. -/
def tableSplit : List Char → List Char → List Char → List String
  | [], pend, acc =>
    if isTableSep pend then [String.mk acc.reverse, ""]
    else [String.mk (pend ++ acc).reverse]
  | c :: rest, pend, acc =>
    if jsIsSpace c then tableSplit rest (c :: pend) acc
    else if isTableSep pend then
      String.mk acc.reverse :: tableSplit rest [] [c]
    else
      tableSplit rest [] (c :: (pend ++ acc))

/-- The regex replace `.replace(/[^\d.]/g, '')`: keep only ASCII digits and
decimal points. -/
def stripNonNumeric (s : String) : String :=
  String.mk (s.data.filter (fun c => c.isDigit || c == '.'))

/-- Numeric value of a list of decimal digit characters. -/
def digitsToNat (ds : List Char) : ℕ :=
  ds.foldl (fun n c => 10 * n + (c.toNat - 48)) 0

/-- JS `parseFloat` restricted to strings of digits and dots (the output of
`stripNonNumeric`): parse the longest prefix of the form `digits*`,
`digits* '.' digits*` containing at least one digit; `none` models `NaN`. -/
def parseNumericString (s : String) : Option ℚ :=
  let cs := s.data
  let intPart := cs.takeWhile Char.isDigit
  let rest := cs.dropWhile Char.isDigit
  match rest with
  | '.' :: rest2 =>
    let fracPart := rest2.takeWhile Char.isDigit
    if intPart.isEmpty && fracPart.isEmpty then none
    else some ((digitsToNat intPart : ℚ) + (digitsToNat fracPart : ℚ) / (10 : ℚ) ^ fracPart.length)
  | _ => if intPart.isEmpty then none else some (digitsToNat intPart : ℚ)

/-- JS `Math.round`: round half towards +∞. -/
def jsRound (x : ℚ) : ℤ := (x + 1/2).floor

/-- Association-list lookup, modelling JS property read `obj[key]`. -/
def lookupAssoc {α : Type} : List (String × α) → String → Option α
  | [], _ => none
  | (k, v) :: rest, key => if k = key then some v else lookupAssoc rest key

/-- Association-list insert-or-update, modelling JS property write
`obj[key] = v` (updates an existing key in place, else appends). -/
def upsert {α : Type} : List (String × α) → String → α → List (String × α)
  | [], key, v => [(key, v)]
  | (k, w) :: rest, key, v =>
    if k = key then (k, v) :: rest else (k, w) :: upsert rest key v

/-- JS truthiness lookup `obj[key] || fallback` for numeric values: a present
value of `0` (or JS `NaN`, outside the rational model) is falsy and treated
as absent. -/
def truthyLookup (rules : List (String × ℚ)) (key : String) : Option ℚ :=
  match lookupAssoc rules key with
  | some v => if v = 0 then none else some v
  | none => none

-- ### Data model (interfaces POMData, SizeChart, GradingRules, SizeSystemConfig)

structure POMData where
  code : String
  description : String
  measurement : ℚ
deriving DecidableEq, Repr

/-- `GradingRules`: measurement code → increment (cm per size step). -/
abbrev GradingRules : Type := List (String × ℚ)

/-- `SizeChart`: size label → (measurement code → value). -/
abbrev SizeChart : Type := List (String × List (String × ℚ))

structure SizeSystemConfig where
  name : String
  sizes : List String
  defaultGradingRules : List (String × ℚ)
  sizeType : String
deriving DecidableEq, Repr

/-- The keys of the `SIZE_SYSTEMS` record (the TS type `SizeSystemType`). -/
inductive SizeSystemType where
  | US
  | EU
  | UK
deriving DecidableEq, Repr

/-- The key string of a size system inside the `SIZE_SYSTEMS` record. -/
def sysKey : SizeSystemType → String
  | .US => "US"
  | .EU => "EU"
  | .UK => "UK"

/-- `Object.entries(SIZE_SYSTEMS)` iteration order. -/
def allSystems : List SizeSystemType := [.US, .EU, .UK]

/-- The `SIZE_SYSTEMS` configuration table, transcribed from the source. -/
def SIZE_SYSTEMS : SizeSystemType → SizeSystemConfig
  | .US =>
    { name := "US (Letter)"
      sizes := ["XS", "S", "M", "L", "XL", "XXL", "XXXL"]
      sizeType := "letter"
      defaultGradingRules :=
        [("A", 2.5), ("F", 2.0), ("G", 0.3), ("H1", 1.0), ("I", 0.3), ("J", 0.3),
         ("B", 4.0), ("C", 3.0), ("D", 1.5), ("E", 2.0), ("H2", 0.5), ("K", 2.0), ("L", 1.0)] }
  | .EU =>
    { name := "EU (Numeric)"
      sizes := ["32", "34", "36", "38", "40", "42", "44", "46", "48", "50", "52"]
      sizeType := "numeric"
      defaultGradingRules :=
        [("A", 2.0), ("F", 1.5), ("G", 0.25), ("H1", 0.8), ("I", 0.25), ("J", 0.25),
         ("B", 3.0), ("C", 2.5), ("D", 1.2), ("E", 1.5), ("H2", 0.4), ("K", 1.5), ("L", 0.8)] }
  | .UK =>
    { name := "UK (Numeric)"
      sizes := ["4", "6", "8", "10", "12", "14", "16", "18", "20", "22", "24"]
      sizeType := "numeric"
      defaultGradingRules :=
        [("A", 2.2), ("F", 1.8), ("G", 0.3), ("H1", 0.9), ("I", 0.3), ("J", 0.3),
         ("B", 3.5), ("C", 2.8), ("D", 1.3), ("E", 1.8), ("H2", 0.45), ("K", 1.8), ("L", 0.9)] }

/-- `MEASUREMENT_TYPE_SUGGESTIONS.length[defaultSYS]`. -/
def lengthDefault : SizeSystemType → ℚ
  | .US => 2.5
  | .EU => 2.0
  | .UK => 2.2

/-- `MEASUREMENT_TYPE_SUGGESTIONS.width[defaultSYS]`. -/
def widthDefault : SizeSystemType → ℚ
  | .US => 4.0
  | .EU => 3.0
  | .UK => 3.5

/-- `MEASUREMENT_TYPE_SUGGESTIONS.small[defaultSYS]`. -/
def smallDefault : SizeSystemType → ℚ
  | .US => 0.5
  | .EU => 0.4
  | .UK => 0.45

-- ### parsePOMInput

/-- Header-line test: `line.toLowerCase().includes('pom code') ||
line.toLowerCase().includes('description')`. -/
def isHeaderLine (line : String) : Bool :=
  jsIncludes (jsToLower line) "pom code" || jsIncludes (jsToLower line) "description"

/-- The `parts` array computed by `parsePOMInput` for one line: split on the
literal `" - "` when it occurs, else split on the regex `/\s{2,}|\t+/`,
trimming (and in the regex branch dropping empty) segments. -/
def lineParts (line : String) : List String :=
  if jsIncludes line " - " then
    (jsSplit line " - ").map jsTrim
  else
    ((tableSplit line.data [] []).map jsTrim).filter (fun p => p != "")

/-- The body of `parsePOMInput`'s per-line loop: `some record` when the line
contributes a record, `none` when it is skipped. -/
def parseLine (line : String) : Option POMData :=
  if isHeaderLine line then none
  else
    match lineParts line with
    | code :: description :: measurementStr :: _ =>
      match parseNumericString (stripNonNumeric measurementStr) with
      | some measurement =>
        if code != "" && description != "" && decide (0 < measurement) then
          some { code := code, description := description, measurement := measurement }
        else none
      | none => none
    | _ => none

/-- `parsePOMInput`. -/
def parsePOMInput (pomInput : String) : List POMData :=
  let lines := (jsSplit (jsTrim pomInput) "\n").filter (fun l => jsTrim l != "")
  lines.filterMap parseLine

-- ### Grading rule resolution

/-- The pattern-matching tail of `getSuggestedIncrement`: suggestions based
on the upper-cased code name. -/
def patternSuggestion (pomCode : String) (sizeSystem : SizeSystemType) : ℚ :=
  let codeUpper := jsToUpper pomCode
  if jsIncludes codeUpper "LENGTH" || jsIncludes codeUpper "HEIGHT" then
    lengthDefault sizeSystem
  else if jsIncludes codeUpper "WIDTH" || jsIncludes codeUpper "CHEST" || jsIncludes codeUpper "HIP" then
    widthDefault sizeSystem
  else
    smallDefault sizeSystem

/-- `getSuggestedIncrement` from the source: a known (truthy) default-table
entry wins, else the pattern heuristics on the upper-cased code. -/
def getSuggestedIncrement (pomCode : String) (sizeSystem : SizeSystemType) : ℚ :=
  let defaultRules := (SIZE_SYSTEMS sizeSystem).defaultGradingRules
  match truthyLookup defaultRules pomCode with
  | some v => v
  | none => patternSuggestion pomCode sizeSystem

/-- The per-code increment used inside `generateSizeChart`:
`gradingRules[code] || getSuggestedIncrement(code, sizeSystem)`. -/
def incrementFor (gradingRules : GradingRules) (code : String) (sizeSystem : SizeSystemType) : ℚ :=
  match truthyLookup gradingRules code with
  | some v => v
  | none => getSuggestedIncrement code sizeSystem

/-- Increment resolution as seen from `generateSizeChart`'s interface:
`gradingRules = customGradingRules || systemConfig.defaultGradingRules`,
then `incrementFor`. -/
def resolveIncrement (code : String) (sizeSystem : SizeSystemType)
    (customGradingRules : Option GradingRules) : ℚ :=
  incrementFor (customGradingRules.getD (SIZE_SYSTEMS sizeSystem).defaultGradingRules)
    code sizeSystem

-- ### generateSizeChart

/-- One chart cell:
`Math.max(0.1, Math.round((base + offset * increment) * 10) / 10)` with
`offset = i − baseSizeIndex`. -/
def chartValue (base : ℚ) (i baseSizeIndex : ℕ) (increment : ℚ) : ℚ :=
  let sizeGradeOffset : ℤ := (i : ℤ) - (baseSizeIndex : ℤ)
  let adjustedMeasurement : ℚ := base + (sizeGradeOffset : ℚ) * increment
  max (1/10) ((jsRound (adjustedMeasurement * 10) : ℚ) / 10)

/-- `generateSizeChart`.  JS `indexOf` returning `-1` corresponds to
`List.indexOf` returning the list length.  The chart object is keyed by the
system's size labels (which are pairwise distinct) in their declaration
order; each inner object is built by upserting one entry per POM record in
list order, so a repeated code keeps its first position and last value,
exactly like repeated JS property writes. -/
def generateSizeChart (basePOMData : List POMData) (baseSize : String)
    (sizeSystem : SizeSystemType) (customGradingRules : Option GradingRules) :
    Except String SizeChart :=
  let systemConfig := SIZE_SYSTEMS sizeSystem
  let sizes := systemConfig.sizes
  let gradingRules := customGradingRules.getD systemConfig.defaultGradingRules
  let baseSizeIndex := sizes.indexOf baseSize
  if baseSizeIndex < sizes.length then
    .ok ((List.range sizes.length).map (fun i =>
      (sizes.getD i "",
        basePOMData.foldl (fun acc item =>
          upsert acc item.code
            (chartValue item.measurement i baseSizeIndex
              (incrementFor gradingRules item.code sizeSystem))) [])))
  else
    .error ("Base size " ++ baseSize ++ " not found in " ++ sysKey sizeSystem ++ " system")

/-- Read `chart[size][code]` from a generated chart. -/
def chartLookup (chart : SizeChart) (size code : String) : Option ℚ :=
  match lookupAssoc chart size with
  | some row => lookupAssoc row code
  | none => none

/-- Read `chart[size][code]` through the `Except` wrapper. -/
def chartEntry (result : Except String SizeChart) (size code : String) : Option ℚ :=
  match result with
  | .ok chart => chartLookup chart size code
  | .error _ => none

-- ### mapSizeAcrossSystems

/-- `mapSizeAcrossSystems`.  The `targetIndex` is the JS rounding of a
non-negative proportion, so it is non-negative and `Int.toNat` is exact;
`Math.min` clamps it to the last valid index. -/
def mapSizeAcrossSystems (size : String) (fromSystem toSystem : SizeSystemType) : String :=
  if fromSystem = toSystem then size
  else
    let fromSizes := (SIZE_SYSTEMS fromSystem).sizes
    let toSizes := (SIZE_SYSTEMS toSystem).sizes
    let fromIndex := fromSizes.indexOf size
    if fromIndex = fromSizes.length then toSizes.getD 1 ""
    else
      let proportion : ℚ := (fromIndex : ℚ) / ((fromSizes.length : ℚ) - 1)
      let targetIndex : ℤ := jsRound (proportion * ((toSizes.length : ℚ) - 1))
      toSizes.getD (min targetIndex ((toSizes.length : ℤ) - 1)).toNat ""

-- ### generateAllSizeCharts

/-- `generateAllSizeCharts`: one chart per system in `Object.entries` order;
custom rules are passed only for the base system; a thrown error from
`generateSizeChart` propagates. -/
def generateAllSizeCharts (pomData : List POMData) (baseSizeSystem : SizeSystemType)
    (baseSize : String) (customGradingRules : Option GradingRules) :
    Except String (List (SizeSystemType × SizeChart × SizeSystemConfig)) :=
  allSystems.mapM (fun sizeSystem => do
    let gradingRules := if sizeSystem = baseSizeSystem then customGradingRules else none
    let targetBaseSize := mapSizeAcrossSystems baseSize baseSizeSystem sizeSystem
    let chart ← generateSizeChart pomData targetBaseSize sizeSystem gradingRules
    pure (sizeSystem, chart, SIZE_SYSTEMS sizeSystem))

-- ### validateGradingRules

structure ValidationResult where
  isValid : Bool
  errors : List String
deriving DecidableEq, Repr

/-- `validateGradingRules`.  Values are exact rationals, so the JS
`typeof increment !== 'number' || isNaN(increment)` branch (dynamic
non-numbers and `NaN`) is outside the model; the remaining checks are
transcribed in source order. -/
def validateGradingRules (rules : GradingRules) : ValidationResult :=
  let errors := rules.foldl (fun errs cv =>
    if cv.2 < 0 then errs ++ [cv.1 ++ ": Must be positive"]
    else if 10 < cv.2 then errs ++ [cv.1 ++ ": Seems too large (>10cm per size)"]
    else errs) []
  { isValid := errors.isEmpty, errors := errors }

-- ## Lemmas about the JS-object model

theorem jsRound_eq (x : ℚ) : jsRound x = ⌊x + 1/2⌋ := by
  unfold jsRound
  rw [Rat.floor_def', Rat.floor_def]

theorem lookupAssoc_upsert {α : Type} (m : List (String × α)) (k : String) (v : α)
    (key : String) :
    lookupAssoc (upsert m k v) key = if k = key then some v else lookupAssoc m key := by
  induction m with
  | nil => simp [upsert, lookupAssoc]
  | cons hd tl ih =>
    obtain ⟨k0, w⟩ := hd
    simp only [upsert]
    by_cases h0 : k0 = k
    · subst h0
      by_cases hk : k0 = key <;> simp [lookupAssoc, hk]
    · rw [if_neg h0]
      by_cases hk : k0 = key
      · subst hk
        have : k ≠ k0 := fun hcontra => h0 hcontra.symm
        simp [lookupAssoc, this]
      · simp [lookupAssoc, hk, ih]

theorem lookupAssoc_foldl_upsert {β : Type} (f : POMData → β) (key : String) :
    ∀ (records : List POMData) (acc : List (String × β)),
      lookupAssoc (records.foldl (fun m r => upsert m r.code (f r)) acc) key
        = match records.reverse.find? (fun r => r.code == key) with
          | some r => some (f r)
          | none => lookupAssoc acc key := by
  intro records
  induction records with
  | nil => intro acc; simp
  | cons r rs ih =>
    intro acc
    simp only [List.foldl_cons, List.reverse_cons, List.find?_append, ih]
    cases h : List.find? (fun r => r.code == key) rs.reverse with
    | some y => simp [Option.or]
    | none =>
      simp only [Option.or]
      rw [lookupAssoc_upsert]
      by_cases hc : r.code = key
      · simp [List.find?, hc]
      · have hbeq : (r.code == key) = false := beq_eq_false_iff_ne.mpr hc
        simp [List.find?, hc, hbeq]

theorem find?_reverse_nodup {records : List POMData}
    (hnd : (records.map POMData.code).Nodup) {r : POMData} (hr : r ∈ records) :
    records.reverse.find? (fun x => x.code == r.code) = some r := by
  induction records with
  | nil => cases hr
  | cons a rs ih =>
    simp only [List.map_cons, List.nodup_cons] at hnd
    obtain ⟨ha, hnd'⟩ := hnd
    simp only [List.reverse_cons, List.find?_append]
    rcases List.mem_cons.mp hr with rfl | hr'
    · have hnone : List.find? (fun x => x.code == r.code) rs.reverse = none := by
        rw [List.find?_eq_none]
        intro x hx
        simp only [beq_iff_eq]
        intro hcode
        exact ha (hcode ▸ List.mem_map_of_mem POMData.code (List.mem_reverse.mp hx))
      rw [hnone]
      simp [List.find?, Option.or]
    · rw [ih hnd' hr']
      simp [Option.or]

-- ## Lemmas about the size-system tables

theorem sizes_nodup (sys : SizeSystemType) : (SIZE_SYSTEMS sys).sizes.Nodup := by
  cases sys <;> decide

theorem sizes_length_pos (sys : SizeSystemType) : 0 < (SIZE_SYSTEMS sys).sizes.length := by
  cases sys <;> decide

theorem lookupAssoc_mem {α : Type} {rules : List (String × α)} {key : String} {v : α}
    (h : lookupAssoc rules key = some v) : (key, v) ∈ rules := by
  induction rules with
  | nil => simp [lookupAssoc] at h
  | cons hd tl ih =>
    obtain ⟨k, w⟩ := hd
    simp only [lookupAssoc] at h
    by_cases hk : k = key
    · rw [if_pos hk] at h
      subst hk
      obtain rfl := Option.some.inj h
      exact List.mem_cons_self _ _
    · rw [if_neg hk] at h
      exact List.mem_cons_of_mem _ (ih h)

theorem defaultGradingRules_pos (sys : SizeSystemType) :
    ∀ p ∈ (SIZE_SYSTEMS sys).defaultGradingRules, 0 < p.2 := by
  cases sys <;> (intro p hp; fin_cases hp <;> norm_num)

theorem patternSuggestion_pos (code : String) (sys : SizeSystemType) :
    0 < patternSuggestion code sys := by
  simp only [patternSuggestion]
  split_ifs <;> cases sys <;> norm_num [lengthDefault, widthDefault, smallDefault]

theorem getSuggestedIncrement_pos (code : String) (sys : SizeSystemType) :
    0 < getSuggestedIncrement code sys := by
  simp only [getSuggestedIncrement]
  cases htl : truthyLookup (SIZE_SYSTEMS sys).defaultGradingRules code with
  | none => exact patternSuggestion_pos code sys
  | some v =>
    simp only []
    unfold truthyLookup at htl
    cases hl : lookupAssoc (SIZE_SYSTEMS sys).defaultGradingRules code with
    | none => simp [hl] at htl
    | some w =>
      simp only [hl] at htl
      by_cases hw : w = 0
      · simp [hw] at htl
      · simp only [if_neg hw, Option.some.injEq] at htl
        subst htl
        exact defaultGradingRules_pos sys _ (lookupAssoc_mem hl)

-- ## Characterization of generateSizeChart

theorem generateSizeChart_ok {records : List POMData} {baseSize : String}
    {sys : SizeSystemType} {rules : Option GradingRules}
    (h : baseSize ∈ (SIZE_SYSTEMS sys).sizes) :
    generateSizeChart records baseSize sys rules
      = .ok ((List.range (SIZE_SYSTEMS sys).sizes.length).map (fun i =>
          ((SIZE_SYSTEMS sys).sizes.getD i "",
            records.foldl (fun acc item =>
              upsert acc item.code
                (chartValue item.measurement i ((SIZE_SYSTEMS sys).sizes.indexOf baseSize)
                  (resolveIncrement item.code sys rules))) []))) := by
  have hlt : (SIZE_SYSTEMS sys).sizes.indexOf baseSize < (SIZE_SYSTEMS sys).sizes.length :=
    List.indexOf_lt_length.mpr h
  simp [generateSizeChart, hlt, resolveIncrement]

theorem generateSizeChart_error {records : List POMData} {baseSize : String}
    {sys : SizeSystemType} {rules : Option GradingRules}
    (h : baseSize ∉ (SIZE_SYSTEMS sys).sizes) :
    generateSizeChart records baseSize sys rules
      = .error ("Base size " ++ baseSize ++ " not found in " ++ sysKey sys ++ " system") := by
  have heq : (SIZE_SYSTEMS sys).sizes.indexOf baseSize = (SIZE_SYSTEMS sys).sizes.length :=
    List.indexOf_eq_length.mpr h
  simp [generateSizeChart, heq]

theorem lookupAssoc_map_key {β : Type} (key : ℕ → String) (val : ℕ → β) (i : ℕ) :
    ∀ l : List ℕ, i ∈ l → (∀ j ∈ l, key j = key i → j = i) →
      lookupAssoc (l.map (fun j => (key j, val j))) (key i) = some (val i) := by
  intro l
  induction l with
  | nil => intro h; cases h
  | cons j l' ih =>
    intro hmem hinj
    simp only [List.map_cons, lookupAssoc]
    by_cases hk : key j = key i
    · have hj : j = i := hinj j (List.mem_cons_self _ _) hk
      subst hj
      simp
    · rw [if_neg hk]
      apply ih
      · rcases List.mem_cons.mp hmem with rfl | h'
        · exact absurd rfl hk
        · exact h'
      · intro j' hj' hkj'
        exact hinj j' (List.mem_cons_of_mem _ hj') hkj'

/-- The chart cell at size index `i` and measurement code `code`: the value is
computed from the last input record carrying that code (JS property writes
overwrite), and is absent when no record carries the code. -/
theorem chartEntry_eq (records : List POMData) (baseSize : String) (sys : SizeSystemType)
    (rules : Option GradingRules) (h : baseSize ∈ (SIZE_SYSTEMS sys).sizes)
    (i : ℕ) (hi : i < (SIZE_SYSTEMS sys).sizes.length) (code : String) :
    chartEntry (generateSizeChart records baseSize sys rules)
        ((SIZE_SYSTEMS sys).sizes.getD i "") code
      = match records.reverse.find? (fun r => r.code == code) with
        | some r => some (chartValue r.measurement i ((SIZE_SYSTEMS sys).sizes.indexOf baseSize)
            (resolveIncrement code sys rules))
        | none => none := by
  rw [generateSizeChart_ok h]
  simp only [chartEntry]
  have houter :
      lookupAssoc ((List.range (SIZE_SYSTEMS sys).sizes.length).map (fun j =>
          ((SIZE_SYSTEMS sys).sizes.getD j "",
            records.foldl (fun acc item =>
              upsert acc item.code
                (chartValue item.measurement j ((SIZE_SYSTEMS sys).sizes.indexOf baseSize)
                  (resolveIncrement item.code sys rules))) [])))
        ((SIZE_SYSTEMS sys).sizes.getD i "")
      = some (records.foldl (fun acc item =>
          upsert acc item.code
            (chartValue item.measurement i ((SIZE_SYSTEMS sys).sizes.indexOf baseSize)
              (resolveIncrement item.code sys rules))) []) := by
    apply lookupAssoc_map_key (fun j => (SIZE_SYSTEMS sys).sizes.getD j "") _ i
    · exact List.mem_range.mpr hi
    · intro j hj hkey
      have hj' := List.mem_range.mp hj
      rw [List.getD_eq_getElem _ _ hj', List.getD_eq_getElem _ _ hi] at hkey
      exact ((sizes_nodup sys).getElem_inj_iff).mp hkey
  simp only [chartLookup, houter]
  rw [lookupAssoc_foldl_upsert
    (fun item => chartValue item.measurement i ((SIZE_SYSTEMS sys).sizes.indexOf baseSize)
      (resolveIncrement item.code sys rules)) code records []]
  cases hf : records.reverse.find? (fun r => r.code == code) with
  | none => simp [lookupAssoc]
  | some r =>
    have hcode : r.code = code := by
      have := List.find?_some hf
      exact beq_iff_eq.mp this
    simp [hcode]

/-- `chartValue` is monotone in the size index when the increment is
non-negative. -/
theorem chartValue_mono {m : ℚ} {b : ℕ} {inc : ℚ} (hinc : 0 ≤ inc) {i j : ℕ}
    (hij : i ≤ j) :
    chartValue m i b inc ≤ chartValue m j b inc := by
  unfold chartValue
  apply max_le_max le_rfl
  have hoff : (((i : ℤ) - b : ℤ) : ℚ) ≤ (((j : ℤ) - b : ℤ) : ℚ) := by
    have : ((i : ℤ) - b) ≤ ((j : ℤ) - b) := by omega
    exact_mod_cast this
  have hadj : (m + (((i : ℤ) - b : ℤ) : ℚ) * inc) * 10 ≤ (m + (((j : ℤ) - b : ℤ) : ℚ) * inc) * 10 := by
    have := mul_le_mul_of_nonneg_right hoff hinc
    linarith
  have hfl : jsRound ((m + (((i : ℤ) - b : ℤ) : ℚ) * inc) * 10)
      ≤ jsRound ((m + (((j : ℤ) - b : ℤ) : ℚ) * inc) * 10) := by
    rw [jsRound_eq, jsRound_eq]
    exact Int.floor_le_floor (by linarith)
  have hcast : ((jsRound ((m + (((i : ℤ) - b : ℤ) : ℚ) * inc) * 10) : ℤ) : ℚ)
      ≤ ((jsRound ((m + (((j : ℤ) - b : ℤ) : ℚ) * inc) * 10) : ℤ) : ℚ) := by
    exact_mod_cast hfl
  linarith

-- ## Cross-system mapping

theorem mapSizeAcrossSystems_mem {s : String} {fromSys toSys : SizeSystemType}
    (h : s ∈ (SIZE_SYSTEMS fromSys).sizes) :
    mapSizeAcrossSystems s fromSys toSys ∈ (SIZE_SYSTEMS toSys).sizes := by
  unfold mapSizeAcrossSystems
  by_cases heq : fromSys = toSys
  · subst heq
    simp [h]
  · rw [if_neg heq]
    have hlt := List.indexOf_lt_length.mpr h
    have hne : (SIZE_SYSTEMS fromSys).sizes.indexOf s ≠ (SIZE_SYSTEMS fromSys).sizes.length :=
      Nat.ne_of_lt hlt
    simp only [if_neg hne]
    have hpos : 0 < (SIZE_SYSTEMS toSys).sizes.length := sizes_length_pos toSys
    have hidx : (min
        (jsRound (((SIZE_SYSTEMS fromSys).sizes.indexOf s : ℚ) /
            (((SIZE_SYSTEMS fromSys).sizes.length : ℚ) - 1) *
          (((SIZE_SYSTEMS toSys).sizes.length : ℚ) - 1)))
        (((SIZE_SYSTEMS toSys).sizes.length : ℤ) - 1)).toNat < (SIZE_SYSTEMS toSys).sizes.length := by
      have h1 : (min
          (jsRound (((SIZE_SYSTEMS fromSys).sizes.indexOf s : ℚ) /
              (((SIZE_SYSTEMS fromSys).sizes.length : ℚ) - 1) *
            (((SIZE_SYSTEMS toSys).sizes.length : ℚ) - 1)))
          (((SIZE_SYSTEMS toSys).sizes.length : ℤ) - 1))
          ≤ ((SIZE_SYSTEMS toSys).sizes.length : ℤ) - 1 := min_le_right _ _
      have h2 := Int.toNat_le_toNat h1
      have h3 : (((SIZE_SYSTEMS toSys).sizes.length : ℤ) - 1).toNat
          = (SIZE_SYSTEMS toSys).sizes.length - 1 := by omega
      omega
    rw [List.getD_eq_getElem _ _ hidx]
    exact List.getElem_mem _

-- ## Concrete increment evaluations used by the example theorems

theorem lookupAssoc_cons_eq {α : Type} (k : String) (v : α) (rest : List (String × α)) :
    lookupAssoc ((k, v) :: rest) k = some v := by
  simp [lookupAssoc]

theorem lookupAssoc_cons_ne {α : Type} {k key : String} (h : k ≠ key) (v : α)
    (rest : List (String × α)) :
    lookupAssoc ((k, v) :: rest) key = lookupAssoc rest key := by
  simp [lookupAssoc, h]

theorem lookup_A_US_default :
    lookupAssoc (SIZE_SYSTEMS SizeSystemType.US).defaultGradingRules "A" = some (5/2) := by
  simp only [SIZE_SYSTEMS]
  rw [lookupAssoc_cons_eq]
  norm_num

theorem lookup_B_US_default :
    lookupAssoc (SIZE_SYSTEMS SizeSystemType.US).defaultGradingRules "B" = some 4 := by
  simp only [SIZE_SYSTEMS]
  rw [lookupAssoc_cons_ne (by decide), lookupAssoc_cons_ne (by decide),
    lookupAssoc_cons_ne (by decide), lookupAssoc_cons_ne (by decide),
    lookupAssoc_cons_ne (by decide), lookupAssoc_cons_ne (by decide), lookupAssoc_cons_eq]
  norm_num

theorem resolveIncrement_A_US_default : resolveIncrement "A" SizeSystemType.US none = 5/2 := by
  simp only [resolveIncrement, Option.getD_none, incrementFor, truthyLookup, lookup_A_US_default]
  norm_num

theorem resolveIncrement_B_US_default : resolveIncrement "B" SizeSystemType.US none = 4 := by
  simp only [resolveIncrement, Option.getD_none, incrementFor, truthyLookup, lookup_B_US_default]
  norm_num

theorem resolveIncrement_B_US_tiny :
    resolveIncrement "B" SizeSystemType.US (some [("B", 3/100)]) = 3/100 := by
  simp only [resolveIncrement, Option.getD_some, incrementFor, truthyLookup, lookupAssoc_cons_eq]
  norm_num

-- ## Claim theorems

/-- C3: `generateSizeChart` raises a descriptive error if and only if the base
size label is not a member of the target system's size sequence; for a member
base size it returns a chart.  This membership test is the only failure: the
definition produces `.error` in exactly one branch. -/
theorem c3_error_iff_base_size_unknown : ∀ (records : List POMData) (baseSize : String)
    (sys : SizeSystemType) (rules : Option GradingRules),
    (baseSize ∉ (SIZE_SYSTEMS sys).sizes →
      generateSizeChart records baseSize sys rules
        = .error ("Base size " ++ baseSize ++ " not found in " ++ sysKey sys ++ " system"))
    ∧ (baseSize ∈ (SIZE_SYSTEMS sys).sizes →
      ∃ chart, generateSizeChart records baseSize sys rules = .ok chart) := by
  intro records baseSize sys rules
  exact ⟨fun h => generateSizeChart_error h, fun h => ⟨_, generateSizeChart_ok h⟩⟩

/-- Witness for C3 at concrete inputs: "ZZZ" is rejected by the US system with
the descriptive message, "S" is accepted. -/
theorem c3_error_iff_base_size_unknown_witness :
    generateSizeChart [] "ZZZ" SizeSystemType.US none
      = .error ("Base size " ++ "ZZZ" ++ " not found in " ++ sysKey SizeSystemType.US ++ " system")
    ∧ ∃ chart, generateSizeChart [] "S" SizeSystemType.US none = .ok chart :=
  ⟨(c3_error_iff_base_size_unknown [] "ZZZ" SizeSystemType.US none).1 (by decide),
   (c3_error_iff_base_size_unknown [] "S" SizeSystemType.US none).2 (by decide)⟩

/-- C5: `mapSizeAcrossSystems` returns the input unchanged on equal systems;
falls back to the target's index-1 entry when the label is missing from the
source sequence; and otherwise returns the target entry at the rounded
proportional index, clamped above by the last valid index. -/
theorem c5_mapSizeAcrossSystems_spec : ∀ (size : String) (fromSys toSys : SizeSystemType),
    (fromSys = toSys → mapSizeAcrossSystems size fromSys toSys = size)
    ∧ (fromSys ≠ toSys → size ∉ (SIZE_SYSTEMS fromSys).sizes →
        mapSizeAcrossSystems size fromSys toSys = (SIZE_SYSTEMS toSys).sizes.getD 1 "")
    ∧ (fromSys ≠ toSys → size ∈ (SIZE_SYSTEMS fromSys).sizes →
        mapSizeAcrossSystems size fromSys toSys
          = (SIZE_SYSTEMS toSys).sizes.getD
              (min
                (jsRound (((SIZE_SYSTEMS fromSys).sizes.indexOf size : ℚ) /
                    (((SIZE_SYSTEMS fromSys).sizes.length : ℚ) - 1) *
                  (((SIZE_SYSTEMS toSys).sizes.length : ℚ) - 1)))
                (((SIZE_SYSTEMS toSys).sizes.length : ℤ) - 1)).toNat "") := by
  intro size fromSys toSys
  refine ⟨?_, ?_, ?_⟩
  · intro h
    subst h
    simp [mapSizeAcrossSystems]
  · intro hne hnotmem
    have hidx : (SIZE_SYSTEMS fromSys).sizes.indexOf size = (SIZE_SYSTEMS fromSys).sizes.length :=
      List.indexOf_eq_length.mpr hnotmem
    simp [mapSizeAcrossSystems, hne, hidx]
  · intro hne hmem
    have hlt := List.indexOf_lt_length.mpr hmem
    have hidx : (SIZE_SYSTEMS fromSys).sizes.indexOf size ≠ (SIZE_SYSTEMS fromSys).sizes.length :=
      Nat.ne_of_lt hlt
    simp [mapSizeAcrossSystems, hne, hidx]

/-- Witness for C5 at concrete inputs: identity on US→US, index-1 fallback for
an unknown label US→EU, and the proportional formula for "S" US→EU. -/
theorem c5_mapSizeAcrossSystems_spec_witness :
    mapSizeAcrossSystems "S" SizeSystemType.US SizeSystemType.US = "S"
    ∧ mapSizeAcrossSystems "NOTASIZE" SizeSystemType.US SizeSystemType.EU
        = (SIZE_SYSTEMS SizeSystemType.EU).sizes.getD 1 ""
    ∧ mapSizeAcrossSystems "S" SizeSystemType.US SizeSystemType.EU
        = (SIZE_SYSTEMS SizeSystemType.EU).sizes.getD
            (min
              (jsRound (((SIZE_SYSTEMS SizeSystemType.US).sizes.indexOf "S" : ℚ) /
                  (((SIZE_SYSTEMS SizeSystemType.US).sizes.length : ℚ) - 1) *
                (((SIZE_SYSTEMS SizeSystemType.EU).sizes.length : ℚ) - 1)))
              (((SIZE_SYSTEMS SizeSystemType.EU).sizes.length : ℤ) - 1)).toNat "" :=
  ⟨(c5_mapSizeAcrossSystems_spec "S" SizeSystemType.US SizeSystemType.US).1 rfl,
   (c5_mapSizeAcrossSystems_spec "NOTASIZE" SizeSystemType.US SizeSystemType.EU).2.1
     (by decide) (by decide),
   (c5_mapSizeAcrossSystems_spec "S" SizeSystemType.US SizeSystemType.EU).2.2
     (by decide) (by decide)⟩

/-- C9: a grading-rule entry stored as exactly 0 is falsy for the `||`
fallback in `generateSizeChart`, so the increment used is the suggested one
(`getSuggestedIncrement`, which itself skips falsy default-table entries by
the same `||` truthiness), and that increment is strictly positive — a
0-valued rule cannot make the per-step increment 0. -/
theorem c9_zero_rule_falls_through : ∀ (rules : GradingRules) (code : String)
    (sys : SizeSystemType),
    lookupAssoc rules code = some 0 →
    resolveIncrement code sys (some rules) = getSuggestedIncrement code sys
    ∧ 0 < resolveIncrement code sys (some rules) := by
  intro rules code sys h
  have heq : resolveIncrement code sys (some rules) = getSuggestedIncrement code sys := by
    simp [resolveIncrement, incrementFor, truthyLookup, h]
  exact ⟨heq, heq ▸ getSuggestedIncrement_pos code sys⟩

/-- Witness for C9: a custom rule set mapping "B" to 0 on the US system. -/
theorem c9_zero_rule_falls_through_witness :
    resolveIncrement "B" SizeSystemType.US (some [("B", 0)])
        = getSuggestedIncrement "B" SizeSystemType.US
    ∧ 0 < resolveIncrement "B" SizeSystemType.US (some [("B", 0)]) :=
  c9_zero_rule_falls_through [("B", 0)] "B" SizeSystemType.US (lookupAssoc_cons_eq "B" 0 [])

/-- C10: the grading-rule validation helper is a total function returning one
message per entry whose increment is negative or exceeds 10 cm per step (in
the rational model every value is a number, so the non-numeric branch is
vacuous), with `isValid` true exactly when the message list is empty; entries
in `[0, 10]` produce no message. -/
theorem c10_validateGradingRules_spec : ∀ rules : GradingRules,
    ((validateGradingRules rules).isValid = true ↔ (validateGradingRules rules).errors = [])
    ∧ (validateGradingRules rules).errors
        = rules.filterMap (fun cv =>
            if cv.2 < 0 then some (cv.1 ++ ": Must be positive")
            else if 10 < cv.2 then some (cv.1 ++ ": Seems too large (>10cm per size)")
            else none)
    ∧ ((validateGradingRules rules).errors = []
        ↔ ∀ cv ∈ rules, 0 ≤ cv.2 ∧ cv.2 ≤ 10) := by
  have hfold : ∀ (rules : List (String × ℚ)) (acc : List String),
      rules.foldl (fun errs cv =>
        if cv.2 < 0 then errs ++ [cv.1 ++ ": Must be positive"]
        else if 10 < cv.2 then errs ++ [cv.1 ++ ": Seems too large (>10cm per size)"]
        else errs) acc
      = acc ++ rules.filterMap (fun cv =>
          if cv.2 < 0 then some (cv.1 ++ ": Must be positive")
          else if 10 < cv.2 then some (cv.1 ++ ": Seems too large (>10cm per size)")
          else none) := by
    intro rules
    induction rules with
    | nil => intro acc; simp
    | cons cv rest ih =>
      intro acc
      simp only [List.foldl_cons, List.filterMap_cons]
      by_cases h1 : cv.2 < 0
      · simp [h1, ih]
      · by_cases h2 : 10 < cv.2
        · simp [h1, h2, ih]
        · simp [h1, h2, ih]
  intro rules
  have herr : (validateGradingRules rules).errors
      = rules.filterMap (fun cv =>
          if cv.2 < 0 then some (cv.1 ++ ": Must be positive")
          else if 10 < cv.2 then some (cv.1 ++ ": Seems too large (>10cm per size)")
          else none) := by
    simp only [validateGradingRules, hfold rules [], List.nil_append]
  refine ⟨?_, herr, ?_⟩
  · simp only [validateGradingRules, List.isEmpty_iff]
  · rw [herr]
    constructor
    · intro hnil cv hcv
      constructor
      · by_contra h0
        push_neg at h0
        have hmem : (cv.1 ++ ": Must be positive") ∈ rules.filterMap (fun cv =>
            if cv.2 < 0 then some (cv.1 ++ ": Must be positive")
            else if 10 < cv.2 then some (cv.1 ++ ": Seems too large (>10cm per size)")
            else none) := List.mem_filterMap.mpr ⟨cv, hcv, by simp [h0]⟩
        rw [hnil] at hmem
        cases hmem
      · by_contra h10
        push_neg at h10
        have h1 : ¬ cv.2 < 0 := by linarith
        have hmem : (cv.1 ++ ": Seems too large (>10cm per size)") ∈ rules.filterMap (fun cv =>
            if cv.2 < 0 then some (cv.1 ++ ": Must be positive")
            else if 10 < cv.2 then some (cv.1 ++ ": Seems too large (>10cm per size)")
            else none) := List.mem_filterMap.mpr ⟨cv, hcv, by simp [h1, h10]⟩
        rw [hnil] at hmem
        cases hmem
    · intro hall
      rw [List.filterMap_eq_nil_iff]
      intro cv hcv
      obtain ⟨h0, h10⟩ := hall cv hcv
      have h1 : ¬ cv.2 < 0 := not_lt.mpr h0
      have h2 : ¬ 10 < cv.2 := not_lt.mpr h10
      simp [h1, h2]

/-- Witness for C10 at a concrete rule set with one in-range, one negative and
one too-large entry. -/
theorem c10_validateGradingRules_spec_witness :
    ((validateGradingRules [("A", 2), ("B", -1), ("C", 11)]).isValid = true
      ↔ (validateGradingRules [("A", 2), ("B", -1), ("C", 11)]).errors = [])
    ∧ ((validateGradingRules [("A", 2), ("B", -1), ("C", 11)]).errors = []
        ↔ ∀ cv ∈ ([("A", 2), ("B", -1), ("C", 11)] : GradingRules), 0 ≤ cv.2 ∧ cv.2 ≤ 10) :=
  ⟨(c10_validateGradingRules_spec [("A", 2), ("B", -1), ("C", 11)]).1,
   (c10_validateGradingRules_spec [("A", 2), ("B", -1), ("C", 11)]).2.2⟩

/-- C7: `parsePOMInput` is a total function (never throws in the model) whose
records all carry a strictly positive measurement; a line contributes a
record only if its (already trimmed) parts list has at least 3 segments with
non-empty code and description and a third segment that, after stripping
non-digit/non-dot characters, parses to a number strictly greater than 0;
every other line is dropped, and empty input yields the empty list. -/
theorem c7_parse_safety :
    (∀ input : String, ∀ r ∈ parsePOMInput input, 0 < r.measurement)
    ∧ parsePOMInput "" = []
    ∧ (∀ (line : String) (r : POMData), parseLine line = some r →
        3 ≤ (lineParts line).length
        ∧ (lineParts line).getD 0 "" ≠ ""
        ∧ (lineParts line).getD 1 "" ≠ ""
        ∧ parseNumericString (stripNonNumeric ((lineParts line).getD 2 "")) = some r.measurement
        ∧ 0 < r.measurement) := by
  have hline : ∀ (line : String) (r : POMData), parseLine line = some r →
      3 ≤ (lineParts line).length
      ∧ (lineParts line).getD 0 "" ≠ ""
      ∧ (lineParts line).getD 1 "" ≠ ""
      ∧ parseNumericString (stripNonNumeric ((lineParts line).getD 2 "")) = some r.measurement
      ∧ 0 < r.measurement := by
    intro line r h
    unfold parseLine at h
    by_cases hh : isHeaderLine line = true
    · simp [hh] at h
    · rw [if_neg hh] at h
      cases hparts : lineParts line with
      | nil => simp [hparts] at h
      | cons code rest =>
        cases rest with
        | nil => simp [hparts] at h
        | cons description rest2 =>
          cases rest2 with
          | nil => simp [hparts] at h
          | cons measurementStr tail =>
            rw [hparts] at h
            cases hm : parseNumericString (stripNonNumeric measurementStr) with
            | none => simp [hm] at h
            | some m =>
              simp only [hm] at h
              by_cases hc : (code != "" && description != "" && decide (0 < m)) = true
              · rw [if_pos hc] at h
                simp only [Bool.and_eq_true, bne_iff_ne, ne_eq, decide_eq_true_eq] at hc
                obtain ⟨⟨hcode, hdesc⟩, hmpos⟩ := hc
                have hr : r = ⟨code, description, m⟩ := (Option.some.inj h).symm
                subst hr
                exact ⟨by simp, by simpa using hcode, by simpa using hdesc,
                  by simpa using hm, by simpa using hmpos⟩
              · rw [if_neg hc] at h
                cases h
  refine ⟨?_, by decide, hline⟩
  intro input r hr
  simp only [parsePOMInput] at hr
  obtain ⟨line, _, hl⟩ := List.mem_filterMap.mp hr
  exact (hline line r hl).2.2.2.2

/-- Witness for C7: the record parsed from "A - B - 5" has a positive
measurement, and the empty input parses to the empty list. -/
theorem c7_parse_safety_witness :
    (0 : ℚ) < (⟨"A", "B", 5⟩ : POMData).measurement ∧ parsePOMInput "" = [] :=
  ⟨c7_parse_safety.1 "A - B - 5" ⟨"A", "B", 5⟩ (by decide), c7_parse_safety.2.1⟩

/-- C2 counterexample: the claim as stated says a user-supplied custom rule is
used whenever the non-empty custom set contains the code, but a custom entry
stored as 0 is falsy for `||`, so the resolved increment for "B" on US with
custom set {B: 0} is the built-in default 4, not the stored 0. -/
theorem c2_counterexample :
    lookupAssoc [("B", (0 : ℚ))] "B" = some 0
    ∧ resolveIncrement "B" SizeSystemType.US (some [("B", 0)]) = 4
    ∧ (4 : ℚ) ≠ 0 := by
  refine ⟨lookupAssoc_cons_eq "B" 0 [], ?_, by norm_num⟩
  have h0 : resolveIncrement "B" SizeSystemType.US (some [("B", 0)])
      = getSuggestedIncrement "B" SizeSystemType.US := by
    simp [resolveIncrement, incrementFor, truthyLookup, lookupAssoc_cons_eq]
  rw [h0]
  simp only [getSuggestedIncrement, truthyLookup, lookup_B_US_default]
  norm_num

/-- C2 (amended): the increment used by chart generation resolves as (1) the
custom rule for the code when the supplied custom set stores a non-zero
(truthy) value for it; (2) otherwise the suggested increment, which is the
system's built-in default when that table stores a non-zero value for the
code; (3) otherwise the case-insensitive pattern heuristic: LENGTH/HEIGHT ⇒
system length default, WIDTH/CHEST/HIP ⇒ system width default, anything else
⇒ system small default.  Without a custom set, resolution starts at (2). -/
theorem c2_amended_resolution_order : ∀ (code : String) (sys : SizeSystemType)
    (custom : GradingRules),
    (∀ v : ℚ, lookupAssoc custom code = some v → v ≠ 0 →
        resolveIncrement code sys (some custom) = v)
    ∧ ((lookupAssoc custom code = none ∨ lookupAssoc custom code = some 0) →
        resolveIncrement code sys (some custom) = getSuggestedIncrement code sys)
    ∧ (∀ w : ℚ, lookupAssoc (SIZE_SYSTEMS sys).defaultGradingRules code = some w → w ≠ 0 →
        getSuggestedIncrement code sys = w)
    ∧ ((lookupAssoc (SIZE_SYSTEMS sys).defaultGradingRules code = none
          ∨ lookupAssoc (SIZE_SYSTEMS sys).defaultGradingRules code = some 0) →
        getSuggestedIncrement code sys = patternSuggestion code sys)
    ∧ ((jsIncludes (jsToUpper code) "LENGTH" || jsIncludes (jsToUpper code) "HEIGHT") = true →
        patternSuggestion code sys = lengthDefault sys)
    ∧ ((jsIncludes (jsToUpper code) "LENGTH" || jsIncludes (jsToUpper code) "HEIGHT") = false →
        (jsIncludes (jsToUpper code) "WIDTH" || jsIncludes (jsToUpper code) "CHEST"
          || jsIncludes (jsToUpper code) "HIP") = true →
        patternSuggestion code sys = widthDefault sys)
    ∧ ((jsIncludes (jsToUpper code) "LENGTH" || jsIncludes (jsToUpper code) "HEIGHT") = false →
        (jsIncludes (jsToUpper code) "WIDTH" || jsIncludes (jsToUpper code) "CHEST"
          || jsIncludes (jsToUpper code) "HIP") = false →
        patternSuggestion code sys = smallDefault sys)
    ∧ resolveIncrement code sys none = getSuggestedIncrement code sys := by
  intro code sys custom
  refine ⟨?_, ?_, ?_, ?_, ?_, ?_, ?_, ?_⟩
  · intro v hv hv0
    simp [resolveIncrement, incrementFor, truthyLookup, hv, hv0]
  · rintro (h | h) <;> simp [resolveIncrement, incrementFor, truthyLookup, h]
  · intro w hw hw0
    simp [getSuggestedIncrement, truthyLookup, hw, hw0]
  · rintro (h | h) <;> simp [getSuggestedIncrement, truthyLookup, h]
  · intro h1
    simp [patternSuggestion, h1]
  · intro h1 h2
    simp [patternSuggestion, h1, h2]
  · intro h1 h2
    simp [patternSuggestion, h1, h2]
  · cases htl : truthyLookup (SIZE_SYSTEMS sys).defaultGradingRules code with
    | none => simp [resolveIncrement, incrementFor, getSuggestedIncrement, htl]
    | some v => simp [resolveIncrement, incrementFor, getSuggestedIncrement, htl]

/-- Witness for C2 (amended) at concrete inputs exercising tiers 1–3: a
truthy custom rule wins; the built-in US default for "B" is the suggested
increment; a code matching no default falls to the pattern heuristic, and
"XHEIGHT" is routed to the length default. -/
theorem c2_amended_resolution_order_witness :
    resolveIncrement "B" SizeSystemType.US (some [("B", 7)]) = 7
    ∧ getSuggestedIncrement "B" SizeSystemType.US = 4
    ∧ patternSuggestion "XHEIGHT" SizeSystemType.US = lengthDefault SizeSystemType.US :=
  ⟨(c2_amended_resolution_order "B" SizeSystemType.US [("B", 7)]).1 7
      (lookupAssoc_cons_eq "B" 7 []) (by norm_num),
   (c2_amended_resolution_order "B" SizeSystemType.US []).2.2.1 4
      lookup_B_US_default (by norm_num),
   (c2_amended_resolution_order "XHEIGHT" SizeSystemType.US []).2.2.2.2.1 (by decide)⟩

/-- C1 counterexample: with two records sharing code "A" (base values 66 and
50), the chart entry at the base size "S" is 50 — the value of the *last*
record — not the 66 the claim's per-record formula demands for the first
record, so the claim fails as stated on duplicate codes. -/
theorem c1_counterexample :
    "S" ∈ (SIZE_SYSTEMS SizeSystemType.US).sizes
    ∧ (⟨"A", "x", 66⟩ : POMData) ∈ ([⟨"A", "x", 66⟩, ⟨"A", "y", 50⟩] : List POMData)
    ∧ (SIZE_SYSTEMS SizeSystemType.US).sizes.getD 1 "" = "S"
    ∧ chartEntry (generateSizeChart [⟨"A", "x", 66⟩, ⟨"A", "y", 50⟩] "S" SizeSystemType.US none)
        "S" "A" = some 50
    ∧ max (1/10 : ℚ)
        ((jsRound (((66 : ℚ)
            + (((1 : ℤ) - ((SIZE_SYSTEMS SizeSystemType.US).sizes.indexOf "S" : ℤ)) : ℚ)
              * resolveIncrement "A" SizeSystemType.US none) * 10) : ℚ) / 10) = 66
    ∧ ((50 : ℚ) ≠ 66) := by
  refine ⟨by decide, by decide, by decide, ?_, ?_, by norm_num⟩
  · have hc := chartEntry_eq [⟨"A", "x", 66⟩, ⟨"A", "y", 50⟩] "S" SizeSystemType.US none
      (by decide) 1 (by decide) "A"
    rw [show (SIZE_SYSTEMS SizeSystemType.US).sizes.getD 1 "" = "S" from by decide] at hc
    simp only [show ([(⟨"A", "x", 66⟩ : POMData), ⟨"A", "y", 50⟩].reverse.find?
        (fun r => r.code == "A")) = some ⟨"A", "y", 50⟩ from by decide] at hc
    rw [hc]
    rw [show (SIZE_SYSTEMS SizeSystemType.US).sizes.indexOf "S" = 1 from by decide,
      resolveIncrement_A_US_default]
    norm_num [chartValue, jsRound_eq]
  · rw [show (SIZE_SYSTEMS SizeSystemType.US).sizes.indexOf "S" = 1 from by decide,
      resolveIncrement_A_US_default]
    norm_num [jsRound_eq]

/-- C1 (amended): for a base size in the target system and records whose
codes are pairwise distinct (so that no later record overwrites an earlier
one), `generateSizeChart` succeeds, its chart has exactly the system's size
labels as keys in order, and the entry for each record's code at size index
`i` is `max(0.1, round₁(baseValue + (i − baseIndex) · resolvedIncrement))`,
rounding after the offset arithmetic. -/
theorem c1_amended_chart_values : ∀ (records : List POMData) (baseSize : String)
    (sys : SizeSystemType) (customRules : Option GradingRules),
    baseSize ∈ (SIZE_SYSTEMS sys).sizes →
    (records.map POMData.code).Nodup →
    ∃ chart, generateSizeChart records baseSize sys customRules = .ok chart
      ∧ chart.map Prod.fst = (SIZE_SYSTEMS sys).sizes
      ∧ ∀ r ∈ records, ∀ i : ℕ, i < (SIZE_SYSTEMS sys).sizes.length →
          chartLookup chart ((SIZE_SYSTEMS sys).sizes.getD i "") r.code
            = some (max (1/10)
                ((jsRound ((r.measurement
                    + (((i : ℤ) - ((SIZE_SYSTEMS sys).sizes.indexOf baseSize : ℤ)) : ℚ)
                      * resolveIncrement r.code sys customRules) * 10) : ℚ) / 10)) := by
  intro records baseSize sys customRules h hnd
  refine ⟨_, generateSizeChart_ok h, ?_, ?_⟩
  · rw [List.map_map]
    apply List.ext_getElem
    · simp
    · intro n h1 h2
      simp only [List.getElem_map, List.getElem_range, Function.comp_apply]
      exact List.getD_eq_getElem _ _ h2
  · intro r hr i hi
    have hc := chartEntry_eq records baseSize sys customRules h i hi r.code
    rw [generateSizeChart_ok h] at hc
    simp only [chartEntry] at hc
    simp only [find?_reverse_nodup hnd hr] at hc
    rw [hc]
    simp only [chartValue]
    norm_cast

/-- Witness for C1 (amended) at a concrete single-record input on the US
system with base size "S". -/
theorem c1_amended_chart_values_witness :
    ∃ chart, generateSizeChart [⟨"B", "½ Chest", 54⟩] "S" SizeSystemType.US none = .ok chart
      ∧ chart.map Prod.fst = (SIZE_SYSTEMS SizeSystemType.US).sizes
      ∧ ∀ r ∈ ([⟨"B", "½ Chest", 54⟩] : List POMData), ∀ i : ℕ,
          i < (SIZE_SYSTEMS SizeSystemType.US).sizes.length →
          chartLookup chart ((SIZE_SYSTEMS SizeSystemType.US).sizes.getD i "") r.code
            = some (max (1/10)
                ((jsRound ((r.measurement
                    + (((i : ℤ) - ((SIZE_SYSTEMS SizeSystemType.US).sizes.indexOf "S" : ℤ)) : ℚ)
                      * resolveIncrement r.code SizeSystemType.US none) * 10) : ℚ) / 10)) :=
  c1_amended_chart_values [⟨"B", "½ Chest", 54⟩] "S" SizeSystemType.US none
    (by decide) (by decide)

-- ## Concrete chart-entry evaluations shared by the example theorems

theorem chartEntry_demo_M :
    chartEntry (generateSizeChart [⟨"B", "½ Chest", 54⟩] "S" SizeSystemType.US none) "M" "B"
      = some 58 := by
  have hc := chartEntry_eq [⟨"B", "½ Chest", 54⟩] "S" SizeSystemType.US none
    (by decide) 2 (by decide) "B"
  rw [show (SIZE_SYSTEMS SizeSystemType.US).sizes.getD 2 "" = "M" from by decide] at hc
  simp only [show ([(⟨"B", "½ Chest", 54⟩ : POMData)].reverse.find? (fun r => r.code == "B"))
      = some ⟨"B", "½ Chest", 54⟩ from by decide] at hc
  rw [hc, show (SIZE_SYSTEMS SizeSystemType.US).sizes.indexOf "S" = 1 from by decide,
    resolveIncrement_B_US_default]
  norm_num [chartValue, jsRound_eq]

theorem chartEntry_demo_XS :
    chartEntry (generateSizeChart [⟨"B", "½ Chest", 54⟩] "S" SizeSystemType.US none) "XS" "B"
      = some 50 := by
  have hc := chartEntry_eq [⟨"B", "½ Chest", 54⟩] "S" SizeSystemType.US none
    (by decide) 0 (by decide) "B"
  rw [show (SIZE_SYSTEMS SizeSystemType.US).sizes.getD 0 "" = "XS" from by decide] at hc
  simp only [show ([(⟨"B", "½ Chest", 54⟩ : POMData)].reverse.find? (fun r => r.code == "B"))
      = some ⟨"B", "½ Chest", 54⟩ from by decide] at hc
  rw [hc, show (SIZE_SYSTEMS SizeSystemType.US).sizes.indexOf "S" = 1 from by decide,
    resolveIncrement_B_US_default]
  norm_num [chartValue, jsRound_eq]

theorem chartEntry_tiny_S :
    chartEntry (generateSizeChart [⟨"B", "½ Chest", 54⟩] "S" SizeSystemType.US
        (some [("B", 3/100)])) "S" "B" = some 54 := by
  have hc := chartEntry_eq [⟨"B", "½ Chest", 54⟩] "S" SizeSystemType.US (some [("B", 3/100)])
    (by decide) 1 (by decide) "B"
  rw [show (SIZE_SYSTEMS SizeSystemType.US).sizes.getD 1 "" = "S" from by decide] at hc
  simp only [show ([(⟨"B", "½ Chest", 54⟩ : POMData)].reverse.find? (fun r => r.code == "B"))
      = some ⟨"B", "½ Chest", 54⟩ from by decide] at hc
  rw [hc, show (SIZE_SYSTEMS SizeSystemType.US).sizes.indexOf "S" = 1 from by decide,
    resolveIncrement_B_US_tiny]
  norm_num [chartValue, jsRound_eq]

theorem chartEntry_tiny_M :
    chartEntry (generateSizeChart [⟨"B", "½ Chest", 54⟩] "S" SizeSystemType.US
        (some [("B", 3/100)])) "M" "B" = some 54 := by
  have hc := chartEntry_eq [⟨"B", "½ Chest", 54⟩] "S" SizeSystemType.US (some [("B", 3/100)])
    (by decide) 2 (by decide) "B"
  rw [show (SIZE_SYSTEMS SizeSystemType.US).sizes.getD 2 "" = "M" from by decide] at hc
  simp only [show ([(⟨"B", "½ Chest", 54⟩ : POMData)].reverse.find? (fun r => r.code == "B"))
      = some ⟨"B", "½ Chest", 54⟩ from by decide] at hc
  rw [hc, show (SIZE_SYSTEMS SizeSystemType.US).sizes.indexOf "S" = 1 from by decide,
    resolveIncrement_B_US_tiny]
  norm_num [chartValue, jsRound_eq]

/-- C4 counterexample: a custom rule of 0.03 cm per step is strictly positive,
yet the chart values for "B" at sizes "S" (index 1) and "M" (index 2) are
both 54 after one-decimal rounding — not strictly increasing. -/
theorem c4_counterexample :
    0 < resolveIncrement "B" SizeSystemType.US (some [("B", 3/100)])
    ∧ chartEntry (generateSizeChart [⟨"B", "½ Chest", 54⟩] "S" SizeSystemType.US
        (some [("B", 3/100)])) "S" "B" = some 54
    ∧ chartEntry (generateSizeChart [⟨"B", "½ Chest", 54⟩] "S" SizeSystemType.US
        (some [("B", 3/100)])) "M" "B" = some 54
    ∧ ¬ (54 : ℚ) < 54 :=
  ⟨by rw [resolveIncrement_B_US_tiny]; norm_num, chartEntry_tiny_S, chartEntry_tiny_M,
   by norm_num⟩

/-- C4 (amended): chart values for a fixed code are monotone (non-decreasing)
along the size sequence whenever the resolved increment is positive; strict
increase fails in general because one-decimal rounding can collapse small
increments and the 0.1 floor can clamp consecutive values. -/
theorem c4_amended_monotone : ∀ (records : List POMData) (baseSize : String)
    (sys : SizeSystemType) (customRules : Option GradingRules) (code : String)
    (i j : ℕ) (v w : ℚ),
    baseSize ∈ (SIZE_SYSTEMS sys).sizes →
    0 < resolveIncrement code sys customRules →
    i ≤ j → j < (SIZE_SYSTEMS sys).sizes.length →
    chartEntry (generateSizeChart records baseSize sys customRules)
        ((SIZE_SYSTEMS sys).sizes.getD i "") code = some v →
    chartEntry (generateSizeChart records baseSize sys customRules)
        ((SIZE_SYSTEMS sys).sizes.getD j "") code = some w →
    v ≤ w := by
  intro records baseSize sys customRules code i j v w hmem hpos hij hj hvi hwj
  have hi : i < (SIZE_SYSTEMS sys).sizes.length := Nat.lt_of_le_of_lt hij hj
  rw [chartEntry_eq records baseSize sys customRules hmem i hi code] at hvi
  rw [chartEntry_eq records baseSize sys customRules hmem j hj code] at hwj
  cases hf : records.reverse.find? (fun r => r.code == code) with
  | none =>
    simp only [hf] at hvi
    cases hvi
  | some r =>
    simp only [hf, Option.some.injEq] at hvi hwj
    subst hvi
    subst hwj
    exact chartValue_mono (le_of_lt hpos) hij

/-- Witness for C4 (amended) at concrete inputs: values 54 and 58 at sizes
"S" (index 1) and "M" (index 2) of the demo chart satisfy 54 ≤ 58. -/
theorem c4_amended_monotone_witness :
    0 < resolveIncrement "B" SizeSystemType.US none
    ∧ chartEntry (generateSizeChart [⟨"B", "½ Chest", 54⟩] "S" SizeSystemType.US none)
        ((SIZE_SYSTEMS SizeSystemType.US).sizes.getD 1 "") "B" = some 54
    ∧ chartEntry (generateSizeChart [⟨"B", "½ Chest", 54⟩] "S" SizeSystemType.US none)
        ((SIZE_SYSTEMS SizeSystemType.US).sizes.getD 2 "") "B" = some 58
    ∧ (54 : ℚ) ≤ 58 := by
  have hpos : 0 < resolveIncrement "B" SizeSystemType.US none := by
    rw [resolveIncrement_B_US_default]; norm_num
  have hS : chartEntry (generateSizeChart [⟨"B", "½ Chest", 54⟩] "S" SizeSystemType.US none)
      ((SIZE_SYSTEMS SizeSystemType.US).sizes.getD 1 "") "B" = some 54 := by
    rw [show (SIZE_SYSTEMS SizeSystemType.US).sizes.getD 1 "" = "S" from by decide]
    have hc := chartEntry_eq [⟨"B", "½ Chest", 54⟩] "S" SizeSystemType.US none
      (by decide) 1 (by decide) "B"
    rw [show (SIZE_SYSTEMS SizeSystemType.US).sizes.getD 1 "" = "S" from by decide] at hc
    simp only [show ([(⟨"B", "½ Chest", 54⟩ : POMData)].reverse.find? (fun r => r.code == "B"))
        = some ⟨"B", "½ Chest", 54⟩ from by decide] at hc
    rw [hc, show (SIZE_SYSTEMS SizeSystemType.US).sizes.indexOf "S" = 1 from by decide,
      resolveIncrement_B_US_default]
    norm_num [chartValue, jsRound_eq]
  have hM : chartEntry (generateSizeChart [⟨"B", "½ Chest", 54⟩] "S" SizeSystemType.US none)
      ((SIZE_SYSTEMS SizeSystemType.US).sizes.getD 2 "") "B" = some 58 := by
    rw [show (SIZE_SYSTEMS SizeSystemType.US).sizes.getD 2 "" = "M" from by decide]
    exact chartEntry_demo_M
  exact ⟨hpos, hS, hM,
    c4_amended_monotone [⟨"B", "½ Chest", 54⟩] "S" SizeSystemType.US none "B" 1 2 54 58
      (by decide) hpos (by omega) (by decide) hS hM⟩

/-- C6 counterexample: the claim as stated promises one chart per system for
every base size, but a base size missing from the base system propagates the
chart generator's error (the same-system mapping returns the label
unchanged), so the orchestrator throws instead of returning charts. -/
theorem c6_counterexample :
    generateAllSizeCharts [] SizeSystemType.US "ZZZ" none
      = .error ("Base size ZZZ not found in US system") := rfl

/-- C6 (amended): when the base size is a member of the base system's
sequence, `generateAllSizeCharts` returns exactly one chart per known system
in declaration order (US, EU, UK), each paired with that system's
configuration; each chart is generated at the cross-system mapped base size,
and the custom grading rules are forwarded only for the base system itself —
every other system gets its own defaults. -/
theorem c6_amended_all_charts : ∀ (records : List POMData) (baseSys : SizeSystemType)
    (baseSize : String) (customRules : Option GradingRules),
    baseSize ∈ (SIZE_SYSTEMS baseSys).sizes →
    ∃ cUS cEU cUK : SizeChart,
      generateAllSizeCharts records baseSys baseSize customRules
        = .ok [(SizeSystemType.US, cUS, SIZE_SYSTEMS SizeSystemType.US),
               (SizeSystemType.EU, cEU, SIZE_SYSTEMS SizeSystemType.EU),
               (SizeSystemType.UK, cUK, SIZE_SYSTEMS SizeSystemType.UK)]
      ∧ generateSizeChart records (mapSizeAcrossSystems baseSize baseSys SizeSystemType.US)
          SizeSystemType.US (if SizeSystemType.US = baseSys then customRules else none) = .ok cUS
      ∧ generateSizeChart records (mapSizeAcrossSystems baseSize baseSys SizeSystemType.EU)
          SizeSystemType.EU (if SizeSystemType.EU = baseSys then customRules else none) = .ok cEU
      ∧ generateSizeChart records (mapSizeAcrossSystems baseSize baseSys SizeSystemType.UK)
          SizeSystemType.UK (if SizeSystemType.UK = baseSys then customRules else none) = .ok cUK := by
  intro records baseSys baseSize customRules h
  obtain ⟨cUS, hUS⟩ : ∃ c, generateSizeChart records
      (mapSizeAcrossSystems baseSize baseSys SizeSystemType.US) SizeSystemType.US
      (if SizeSystemType.US = baseSys then customRules else none) = .ok c :=
    ⟨_, generateSizeChart_ok (mapSizeAcrossSystems_mem h)⟩
  obtain ⟨cEU, hEU⟩ : ∃ c, generateSizeChart records
      (mapSizeAcrossSystems baseSize baseSys SizeSystemType.EU) SizeSystemType.EU
      (if SizeSystemType.EU = baseSys then customRules else none) = .ok c :=
    ⟨_, generateSizeChart_ok (mapSizeAcrossSystems_mem h)⟩
  obtain ⟨cUK, hUK⟩ : ∃ c, generateSizeChart records
      (mapSizeAcrossSystems baseSize baseSys SizeSystemType.UK) SizeSystemType.UK
      (if SizeSystemType.UK = baseSys then customRules else none) = .ok c :=
    ⟨_, generateSizeChart_ok (mapSizeAcrossSystems_mem h)⟩
  refine ⟨cUS, cEU, cUK, ?_, hUS, hEU, hUK⟩
  simp only [generateAllSizeCharts, allSystems, List.mapM_cons, List.mapM_nil, hUS, hEU, hUK,
    bind_pure_comp, map_pure, bind_assoc, pure_bind]
  rfl

/-- Witness for C6 (amended): the orchestrator on the US system with base
size "S" and no custom rules. -/
theorem c6_amended_all_charts_witness :
    ∃ cUS cEU cUK : SizeChart,
      generateAllSizeCharts [] SizeSystemType.US "S" none
        = .ok [(SizeSystemType.US, cUS, SIZE_SYSTEMS SizeSystemType.US),
               (SizeSystemType.EU, cEU, SIZE_SYSTEMS SizeSystemType.EU),
               (SizeSystemType.UK, cUK, SIZE_SYSTEMS SizeSystemType.UK)]
      ∧ generateSizeChart [] (mapSizeAcrossSystems "S" SizeSystemType.US SizeSystemType.US)
          SizeSystemType.US (if SizeSystemType.US = SizeSystemType.US then none else none) = .ok cUS
      ∧ generateSizeChart [] (mapSizeAcrossSystems "S" SizeSystemType.US SizeSystemType.EU)
          SizeSystemType.EU (if SizeSystemType.EU = SizeSystemType.US then none else none) = .ok cEU
      ∧ generateSizeChart [] (mapSizeAcrossSystems "S" SizeSystemType.US SizeSystemType.UK)
          SizeSystemType.UK (if SizeSystemType.UK = SizeSystemType.US then none else none) = .ok cUK :=
  c6_amended_all_charts [] SizeSystemType.US "S" none (by decide)

/-- C8: the concrete boundary and end-to-end examples: base "S" on US with
record (B, 54) yields 58.0 at "M" and 50.0 at "XS"; the two-line example
input parses to exactly two records and grading them on US with base "S"
yields 66.0 at chart["S"]["A"] and 71.0 at chart["L"]["A"]. -/
theorem c8_concrete_examples :
    chartEntry (generateSizeChart [⟨"B", "½ Chest", 54⟩] "S" SizeSystemType.US none) "M" "B"
      = some 58
    ∧ chartEntry (generateSizeChart [⟨"B", "½ Chest", 54⟩] "S" SizeSystemType.US none) "XS" "B"
      = some 50
    ∧ (parsePOMInput "A - Front Length From Shoulder - 66\nB - ½ Chest - 54").length = 2
    ∧ chartEntry (generateSizeChart
        (parsePOMInput "A - Front Length From Shoulder - 66\nB - ½ Chest - 54")
        "S" SizeSystemType.US none) "S" "A" = some 66
    ∧ chartEntry (generateSizeChart
        (parsePOMInput "A - Front Length From Shoulder - 66\nB - ½ Chest - 54")
        "S" SizeSystemType.US none) "L" "A" = some 71 := by
  have hparse : parsePOMInput "A - Front Length From Shoulder - 66\nB - ½ Chest - 54"
      = [⟨"A", "Front Length From Shoulder", 66⟩, ⟨"B", "½ Chest", 54⟩] := by decide
  refine ⟨chartEntry_demo_M, chartEntry_demo_XS, by decide, ?_, ?_⟩
  · rw [hparse]
    have hc := chartEntry_eq [⟨"A", "Front Length From Shoulder", 66⟩, ⟨"B", "½ Chest", 54⟩]
      "S" SizeSystemType.US none (by decide) 1 (by decide) "A"
    rw [show (SIZE_SYSTEMS SizeSystemType.US).sizes.getD 1 "" = "S" from by decide] at hc
    simp only [show ([(⟨"A", "Front Length From Shoulder", 66⟩ : POMData),
        ⟨"B", "½ Chest", 54⟩].reverse.find? (fun r => r.code == "A"))
        = some ⟨"A", "Front Length From Shoulder", 66⟩ from by decide] at hc
    rw [hc, show (SIZE_SYSTEMS SizeSystemType.US).sizes.indexOf "S" = 1 from by decide,
      resolveIncrement_A_US_default]
    norm_num [chartValue, jsRound_eq]
  · rw [hparse]
    have hc := chartEntry_eq [⟨"A", "Front Length From Shoulder", 66⟩, ⟨"B", "½ Chest", 54⟩]
      "S" SizeSystemType.US none (by decide) 3 (by decide) "A"
    rw [show (SIZE_SYSTEMS SizeSystemType.US).sizes.getD 3 "" = "L" from by decide] at hc
    simp only [show ([(⟨"A", "Front Length From Shoulder", 66⟩ : POMData),
        ⟨"B", "½ Chest", 54⟩].reverse.find? (fun r => r.code == "A"))
        = some ⟨"A", "Front Length From Shoulder", 66⟩ from by decide] at hc
    rw [hc, show (SIZE_SYSTEMS SizeSystemType.US).sizes.indexOf "S" = 1 from by decide,
      resolveIncrement_A_US_default]
    norm_num [chartValue, jsRound_eq]
